import Mathlib

/-!
Verification of the wazero assembler constant-pool, binary-section encoding,
sysfs rename, and WASI exit behaviour described in the repository's design
document.  Bytes are modelled as `Nat` values below 256; buffers as `List Nat`.
The amd64 assembler implementation itself is not under `src/` (only its test
files are), so the pool-flushing and encoding routines are modelled from the
specification text and checked against the expected byte strings recorded in
the in-repo tests.
-/

namespace Wazero

/-- Modelled from the spec: a StaticConst is an opaque blob of bytes referenced
by at least one instruction; its finalization callbacks receive the absolute
offset of the blob's first byte once the pool is flushed.  Callbacks are
modelled by returning the list of fired offsets, one per constant in pool
order. -/
structure StaticConst where
  bytes : List Nat
deriving DecidableEq, Repr

/-- Modelled from the spec: a ConstantPool is an ordered set of StaticConsts
plus the byte offset of the first instruction that referenced any of them. -/
structure ConstPool where
  consts : List StaticConst
  FirstUseOffsetInBinary : Nat
deriving DecidableEq, Repr

/-- Modelled from the spec: the assembler state relevant to pool flushing —
the output buffer, the pool, and the maximum-displacement budget. -/
structure AssemblerImpl where
  buf : List Nat
  pool : ConstPool
  MaxDisplacementForConstantPool : Nat
deriving DecidableEq, Repr

/-- Total byte size of the literals currently in the pool. -/
def poolByteSize (p : ConstPool) : Nat :=
  (p.consts.map (fun c => c.bytes.length)).sum

/-- Little-endian 32-bit rendering of a displacement. -/
def le32 (n : Nat) : List Nat :=
  [n % 256, n / 256 % 256, n / 2 ^ 16 % 256, n / 2 ^ 24 % 256]

/-- Modelled from the spec: the forward jump bridging an inline pool flush —
the short-jump encoding (0xEB + 8-bit displacement) when the pool fits the
short-jump range, else the long-jump encoding (0xE9 + 32-bit little-endian
displacement). -/
def bridgeJump (poolSize : Nat) : List Nat :=
  if poolSize ≤ 127 then [0xEB, poolSize] else 0xE9 :: le32 poolSize

/-- Offsets of the first byte of each constant when the literals are laid out
contiguously starting at `start`. -/
def constOffsets (start : Nat) : List StaticConst → List Nat
  | [] => []
  | c :: rest => start :: constOffsets (start + c.bytes.length) rest

/-- Concatenated literal bytes of the pool, in insertion order. -/
def poolBytes (p : ConstPool) : List Nat :=
  (p.consts.map StaticConst.bytes).flatten

/-- Modelled from the spec: one pool flush — assign each StaticConst its final
offset (current buffer position + jump size), emit the jump (none at end of
function), then the literals, fire each constant's finalization callbacks with
the true absolute offset, and clear the pool.  Returns the new state and the
offsets the callbacks observed. -/
def flushConstPool (withJump : Bool) (a : AssemblerImpl) :
    AssemblerImpl × List Nat :=
  let jump := if withJump then bridgeJump (poolByteSize a.pool) else []
  let base := a.buf.length + jump.length
  ({ a with
      buf := a.buf ++ jump ++ poolBytes a.pool
      pool := { consts := [], FirstUseOffsetInBinary := 0 } },
   constOffsets base a.pool.consts)

/-- Modelled from the spec: `maybeFlushConstants` — with a non-empty pool, at
end of function the pool is always flushed (no bridge jump is needed); at any
other check point the pool is flushed, bridged by a forward jump, exactly when
`currentOffset − firstUseOffset` exceeds `MaxDisplacementForConstantPool`. -/
def maybeFlushConstants (endOfFunction : Bool) (a : AssemblerImpl) :
    AssemblerImpl × List Nat :=
  if a.pool.consts.isEmpty then (a, [])
  else if endOfFunction then flushConstPool false a
  else if a.buf.length - a.pool.FirstUseOffsetInBinary >
      a.MaxDisplacementForConstantPool then
    flushConstPool true a
  else (a, [])

/-- Assembler state of the in-repo flush tests: body `[?,?,?,?]`, constants
`{1..8}` and `{10..13}`, first use at offset 0, and a huge displacement
budget. -/
def flushTestState : AssemblerImpl :=
  { buf := [63, 63, 63, 63]
    pool :=
      { consts := [⟨[1, 2, 3, 4, 5, 6, 7, 8]⟩, ⟨[10, 11, 12, 13]⟩]
        FirstUseOffsetInBinary := 0 }
    MaxDisplacementForConstantPool := 2 ^ 31 }

/-- Assembler state of the short-bridge flush test: same body and constants as
`flushTestState` but with a zero displacement budget, forcing an inline
flush. -/
def shortFlushTestState : AssemblerImpl :=
  { flushTestState with MaxDisplacementForConstantPool := 0 }

/-- Assembler state of the long-bridge flush test: a single 256-byte literal
and a zero displacement budget. -/
def longFlushTestState : AssemblerImpl :=
  { buf := [63, 63, 63, 63]
    pool :=
      { consts := [⟨List.replicate 256 0⟩]
        FirstUseOffsetInBinary := 0 }
    MaxDisplacementForConstantPool := 0 }

/-- Modelled from the spec: architecture-specific instruction tags used by the
in-repo assembler tests. -/
inductive Instruction
  | MOVDQU
  | CMPL
  | CMPQ
  | UD2
deriving DecidableEq, Repr

/-- Modelled from the spec: register tags used by the in-repo assembler
tests. -/
inductive Register
  | RegAX
  | RegSP
  | RegR11
  | RegR12
deriving DecidableEq, Repr

/-- Modelled from the spec: the operand kind recorded on each side of an
instruction node. -/
inductive operandType
  | register
  | staticConst
deriving DecidableEq, Repr

/-- Operand kinds of an instruction node's source and destination sides. -/
structure operandTypes where
  src : operandType
  dst : operandType
deriving DecidableEq, Repr

/-- Modelled from the spec: an in-memory instruction node recorded by a
`CompileXToY` operation, to be resolved against a future pool offset. -/
structure nodeImpl where
  instruction : Instruction
  types : operandTypes
  reg : Register
  staticConst : StaticConst
deriving DecidableEq, Repr

/-- Modelled from the spec: backend encoding failures; an odd-length
static-constant operand is an `InvalidOperand` programming error surfaced at
enqueue time. -/
inductive AsmError
  | InvalidOperand
deriving DecidableEq, Repr

/-- Modelled from the spec: the node-recording state of the assembler — the
instruction node list and the most recently added node. -/
structure Assembler where
  nodes : List nodeImpl
  current : Option nodeImpl
deriving DecidableEq, Repr

/-- Fresh assembler with no recorded nodes. -/
def NewAssembler : Assembler := { nodes := [], current := none }

/-- Modelled from the spec: `CompileStaticConstToRegister` fails before
emission when the constant's byte length is odd, else records a node with a
static-const source and a register destination. -/
def CompileStaticConstToRegister (ins : Instruction) (c : StaticConst)
    (reg : Register) (a : Assembler) : Except AsmError Assembler :=
  if c.bytes.length % 2 = 1 then .error .InvalidOperand
  else
    let n : nodeImpl :=
      { instruction := ins
        types := { src := .staticConst, dst := .register }
        reg := reg
        staticConst := c }
    .ok { a with nodes := a.nodes ++ [n], current := some n }

/-- Modelled from the spec: `CompileRegisterToStaticConst` fails before
emission when the constant's byte length is odd, else records a node with a
register source and a static-const destination. -/
def CompileRegisterToStaticConst (ins : Instruction) (reg : Register)
    (c : StaticConst) (a : Assembler) : Except AsmError Assembler :=
  if c.bytes.length % 2 = 1 then .error .InvalidOperand
  else
    let n : nodeImpl :=
      { instruction := ins
        types := { src := .register, dst := .staticConst }
        reg := reg
        staticConst := c }
    .ok { a with nodes := a.nodes ++ [n], current := some n }

/-- Section id of the Wasm function section. -/
def SectionIDFunction : Nat := 3

/-- Section id of the Wasm start section. -/
def SectionIDStart : Nat := 8

/-- Unsigned LEB128 encoding of a natural number: seven value bits per byte,
the high bit marking continuation. -/
def leb128 (n : Nat) : List Nat :=
  if _h : n < 128 then [n]
  else (n % 128 + 128) :: leb128 (n / 128)
termination_by n
decreasing_by exact Nat.div_lt_self (by omega) (by omega)

/-- Modelled from the spec: a Wasm section is its id byte, a LEB128 payload
size, then the payload. -/
def encodeSection (sectionID : Nat) (contents : List Nat) : List Nat :=
  sectionID :: leb128 contents.length ++ contents

/-- Modelled from the spec: the function section payload is a LEB128 vector
length followed by the LEB128 function indices. -/
def EncodeFunctionSection (functionIndexes : List Nat) : List Nat :=
  encodeSection SectionIDFunction
    (leb128 functionIndexes.length ++ functionIndexes.flatMap leb128)

/-- Modelled from the spec: the start section payload is a single LEB128
function index. -/
def EncodeStartSection (funcidx : Nat) : List Nat :=
  encodeSection SectionIDStart (leb128 funcidx)

/-- Hardware register number of a modelled register tag. -/
def regIndex : Register → Nat
  | .RegAX => 0
  | .RegSP => 4
  | .RegR11 => 11
  | .RegR12 => 12

/-- Modelled from the spec: the instruction nodes exercised by the documented
RIP-relative encoding case — `CMPL reg, [const]` (a register compared against
a pooled constant) and the stand-alone `UD2`. -/
inductive AsmNode
  | cmplRegToStaticConst (reg : Register) (c : StaticConst)
  | ud2
deriving DecidableEq, Repr

/-- Encoded byte length of a node: `CMPL reg, [rip+disp32]` is opcode, ModRM
and 4 displacement bytes, preceded by a REX prefix for extended registers;
`UD2` is 2 bytes. -/
def encLen : AsmNode → Nat
  | .cmplRegToStaticConst reg _ => (if 8 ≤ regIndex reg then 1 else 0) + 6
  | .ud2 => 2

/-- Total encoded length of the instruction stream, before the constants. -/
def codeLength (ns : List AsmNode) : Nat := (ns.map encLen).sum

/-- Modelled from the spec: the encoding of one node, given the offset of its
constant (`coff`) and its own offset (`off`); the RIP-relative displacement is
the byte distance from the end of the instruction to the constant's first
byte. -/
def encodeAt (coff off : Nat) : AsmNode → List Nat
  | .cmplRegToStaticConst reg _ =>
    (if 8 ≤ regIndex reg then [0x44] else []) ++
      [0x3B, 0x05 + regIndex reg % 8 * 8] ++
      le32 (coff - (off + encLen (.cmplRegToStaticConst reg ⟨[]⟩)))
  | .ud2 => [0x0F, 0x0B]

/-- Constants referenced by a node, in reference order. -/
def nodeConsts : AsmNode → List (List Nat)
  | .cmplRegToStaticConst _ c => [c.bytes]
  | .ud2 => []

/-- Encoding pass: walk the nodes tracking the current instruction offset and
the offset at which the next referenced constant will land, returning the code
bytes and the referenced constants in order. -/
def assembleGo : List AsmNode → Nat → Nat → List Nat × List (List Nat)
  | [], _, _ => ([], [])
  | n :: rest, off, coff =>
    let r := assembleGo rest (off + encLen n)
      (coff + ((nodeConsts n).map List.length).sum)
    (encodeAt coff off n ++ r.1, nodeConsts n ++ r.2)

/-- Modelled from the spec: `Assemble` emits the instruction stream, resolving
each RIP-relative reference against the future pool offset, then emits the
referenced constants after the code. -/
def Assemble (ns : List AsmNode) : List Nat :=
  let r := assembleGo ns 0 (codeLength ns)
  r.1 ++ r.2.flatten

/-- Modelled from the spec: a typed `ExitError` carrying the exit code, as
surfaced by a guest call to the standard-interface `proc_exit`. -/
structure ExitError where
  ExitCode : Nat
deriving DecidableEq, Repr

/-- Modelled from the spec: the error kinds instantiation can surface — an
orderly `ExitError` from `proc_exit`, a guest trap, or a link error. -/
inductive InstantiateError
  | exitErr (e : ExitError)
  | trap (kind : Nat)
  | linkErr
deriving DecidableEq, Repr

/-- Modelled from the spec: the start-function operations needed for the
`exit_on_start.wasm` example — a call to the standard-interface `proc_exit`
with a code, or an operation with no observable effect. -/
inductive StartOp
  | procExit (code : Nat)
  | nop
deriving DecidableEq, Repr

/-- Modelled from the spec: a module as instantiation sees it — its start
function body (the only part the exit claim depends on). -/
structure WasmModule where
  start : List StartOp
deriving DecidableEq, Repr

/-- Runs a start-function body: a `proc_exit` call surfaces as a typed
`ExitError` carrying the exit code; otherwise the body runs to completion. -/
def runStart : List StartOp → Option ExitError
  | [] => none
  | .procExit c :: _ => some ⟨c⟩
  | .nop :: rest => runStart rest

/-- Modelled from the spec: instantiating a module (WASI instantiated, stdout
configured — I/O configuration does not affect the exit path) executes the
start function; a `proc_exit` there makes instantiation return the
`ExitError` rather than a module result. -/
def InstantiateWithConfig (m : WasmModule) : Except InstantiateError Unit :=
  match runStart m.start with
  | some e => .error (.exitErr e)
  | none => .ok ()

/-- Modelled from the spec: the supplied `exit_on_start.wasm` module, whose
`_start` function calls `proc_exit` with code 2. -/
def exitOnStartWasm : WasmModule := ⟨[.procExit 2]⟩

/-- Modelled from the source of `src/unnamed/part_000` (sysfs): `rename`
returns errno 0 without calling the operating system when both paths are
equal, else performs the OS rename and unwraps its error into an errno.  The
OS call and the error unwrapping are oracles passed in as parameters; the
second component of the result records whether the OS rename was invoked. -/
def rename {ε : Type} (unwrapOSError : Option ε → Nat)
    (osRename : String → String → Option ε) (src dst : String) : Nat × Bool :=
  if src = dst then (0, false)
  else (unwrapOSError (osRename src dst), true)

/-- Every listed offset points at the first byte of its constant in the laid
out buffer. -/
theorem constOffsets_firstByte (cs : List StaticConst) (pre : List Nat)
    (p : StaticConst × Nat)
    (hp : p ∈ cs.zip (constOffsets pre.length cs)) :
    ∃ tail, (pre ++ (cs.map StaticConst.bytes).flatten).drop p.2 =
      p.1.bytes ++ tail := by
  induction cs generalizing pre with
  | nil => simp [constOffsets] at hp
  | cons c rest ih =>
    simp only [constOffsets, List.zip_cons_cons, List.mem_cons] at hp
    rcases hp with h | h
    · subst h
      refine ⟨(rest.map StaticConst.bytes).flatten, ?_⟩
      simp [List.drop_append]
    · have := ih (pre ++ c.bytes) (by simpa [Nat.add_comm] using h)
      simpa [List.append_assoc] using this

/-- C1: at end of function (with no displacement pressure relevant), a
non-empty pool is flushed with no bridge jump: the constants appear
contiguously after the function body in insertion order, the pool is cleared,
and each StaticConst's finalization callback fires with the offset of the
literal's first byte in the buffer. -/
theorem maybeFlushConstants_endOfFunction (a : AssemblerImpl)
    (h : a.pool.consts ≠ []) :
    (maybeFlushConstants true a).1.buf = a.buf ++ poolBytes a.pool ∧
    (maybeFlushConstants true a).1.pool.consts = [] ∧
    (maybeFlushConstants true a).2 = constOffsets a.buf.length a.pool.consts ∧
    ∀ p ∈ a.pool.consts.zip (maybeFlushConstants true a).2,
      ∃ tail, (maybeFlushConstants true a).1.buf.drop p.2 = p.1.bytes ++ tail := by
  have hne : a.pool.consts.isEmpty = false := by
    simpa [List.isEmpty_iff] using h
  have hbuf : (maybeFlushConstants true a).1.buf = a.buf ++ poolBytes a.pool := by
    simp [maybeFlushConstants, hne, flushConstPool]
  have hoffs : (maybeFlushConstants true a).2 =
      constOffsets a.buf.length a.pool.consts := by
    simp [maybeFlushConstants, hne, flushConstPool]
  refine ⟨hbuf, by simp [maybeFlushConstants, hne, flushConstPool], hoffs, ?_⟩
  intro p hp
  rw [hoffs] at hp
  rw [hbuf]
  simpa [poolBytes] using constOffsets_firstByte a.pool.consts a.buf p hp

/-- Witness for C1 at the in-repo test input: body `[?,?,?,?]`, constants
`{1..8}` and `{10..13}`; the emitted buffer and the callback offsets `4` and
`12` match the documented expectation. -/
theorem maybeFlushConstants_endOfFunction_witness :
    flushTestState.pool.consts ≠ [] ∧
    (maybeFlushConstants true flushTestState).1.buf =
      [63, 63, 63, 63, 1, 2, 3, 4, 5, 6, 7, 8, 10, 11, 12, 13] ∧
    (maybeFlushConstants true flushTestState).2 = [4, 12] := by
  refine ⟨by decide, ?_, ?_⟩
  · exact (maybeFlushConstants_endOfFunction flushTestState
      (by decide)).1.trans (by decide)
  · exact (maybeFlushConstants_endOfFunction flushTestState
      (by decide)).2.2.1.trans (by decide)

/-- C2: when the displacement budget forces an inline flush before end of
function, the pool is bridged by a forward jump skipping the literal bytes —
the 2-byte short-jump encoding `0xEB, size` when the pool fits the short-jump
range, else the 5-byte long-jump encoding `0xE9` plus a 32-bit little-endian
displacement — the constants follow in insertion order, the pool is cleared,
and each callback observes its literal's first-byte offset. -/
theorem maybeFlushConstants_inlineFlush (a : AssemblerImpl)
    (h : a.pool.consts ≠ [])
    (hd : a.buf.length - a.pool.FirstUseOffsetInBinary >
      a.MaxDisplacementForConstantPool) :
    (maybeFlushConstants false a).1.buf =
      a.buf ++ (if poolByteSize a.pool ≤ 127
        then [0xEB, poolByteSize a.pool]
        else 0xE9 :: le32 (poolByteSize a.pool)) ++ poolBytes a.pool ∧
    (maybeFlushConstants false a).1.pool.consts = [] ∧
    (maybeFlushConstants false a).2 =
      constOffsets (a.buf.length + (bridgeJump (poolByteSize a.pool)).length)
        a.pool.consts ∧
    ∀ p ∈ a.pool.consts.zip (maybeFlushConstants false a).2,
      ∃ tail, (maybeFlushConstants false a).1.buf.drop p.2 = p.1.bytes ++ tail := by
  have hne : a.pool.consts.isEmpty = false := by
    simpa [List.isEmpty_iff] using h
  have hbuf : (maybeFlushConstants false a).1.buf =
      a.buf ++ bridgeJump (poolByteSize a.pool) ++ poolBytes a.pool := by
    simp [maybeFlushConstants, hne, hd, flushConstPool]
  have hoffs : (maybeFlushConstants false a).2 =
      constOffsets (a.buf.length + (bridgeJump (poolByteSize a.pool)).length)
        a.pool.consts := by
    simp [maybeFlushConstants, hne, hd, flushConstPool]
  refine ⟨by rw [hbuf, bridgeJump],
    by simp [maybeFlushConstants, hne, hd, flushConstPool], hoffs, ?_⟩
  intro p hp
  rw [hoffs] at hp
  rw [hbuf, List.append_assoc]
  have hlen : (a.buf ++ bridgeJump (poolByteSize a.pool)).length =
      a.buf.length + (bridgeJump (poolByteSize a.pool)).length :=
    List.length_append _ _
  have := constOffsets_firstByte a.pool.consts
    (a.buf ++ bridgeJump (poolByteSize a.pool)) p (by rw [hlen]; exact hp)
  simpa [poolBytes, List.append_assoc] using this

set_option maxRecDepth 20000 in
/-- Witness for C2 at the in-repo test inputs: the short-bridge case yields
`[?,?,?,?,0xEB,0x0C,1..8,10..13]` with callback offsets `6` and `14`, and the
long-bridge case (one 256-byte literal) yields the 5-byte long jump `0xE9`
with little-endian displacement `0x00,0x01,0x00,0x00` and callback offset
`9`. -/
theorem maybeFlushConstants_inlineFlush_witness :
    (maybeFlushConstants false shortFlushTestState).1.buf =
      [63, 63, 63, 63, 0xEB, 0x0C, 1, 2, 3, 4, 5, 6, 7, 8, 10, 11, 12, 13] ∧
    (maybeFlushConstants false shortFlushTestState).2 = [6, 14] ∧
    (maybeFlushConstants false longFlushTestState).1.buf =
      [63, 63, 63, 63, 0xE9, 0x00, 0x01, 0x00, 0x00] ++ List.replicate 256 0 ∧
    (maybeFlushConstants false longFlushTestState).2 = [9] := by
  refine ⟨?_, ?_, ?_, ?_⟩
  · exact (maybeFlushConstants_inlineFlush shortFlushTestState
      (by decide) (by decide)).1.trans (by decide)
  · exact (maybeFlushConstants_inlineFlush shortFlushTestState
      (by decide) (by decide)).2.2.1.trans (by decide)
  · exact (maybeFlushConstants_inlineFlush longFlushTestState
      (by decide) (by decide)).1.trans (by decide)
  · exact (maybeFlushConstants_inlineFlush longFlushTestState
      (by decide) (by decide)).2.2.1.trans (by decide)

/-- C4: at a flush check point that is not end of function, when
`currentOffset − firstUseOffset` does not exceed the displacement budget,
`maybeFlushConstants` emits no bytes and retains the pool: the state is
returned unchanged and no callback fires. -/
theorem maybeFlushConstants_noFlush (a : AssemblerImpl)
    (hd : a.buf.length - a.pool.FirstUseOffsetInBinary ≤
      a.MaxDisplacementForConstantPool) :
    maybeFlushConstants false a = (a, []) := by
  by_cases he : a.pool.consts.isEmpty
  · simp [maybeFlushConstants, he]
  · simp [maybeFlushConstants, he, Nat.not_lt.mpr hd]

/-- Witness for C4 at the in-repo test input: with the huge displacement
budget and a non-end-of-function check point, nothing is emitted and the two
constants remain pooled. -/
theorem maybeFlushConstants_noFlush_witness :
    flushTestState.buf.length - flushTestState.pool.FirstUseOffsetInBinary ≤
      flushTestState.MaxDisplacementForConstantPool ∧
    maybeFlushConstants false flushTestState = (flushTestState, []) :=
  ⟨by decide, maybeFlushConstants_noFlush flushTestState (by decide)⟩

/-- C3: for both `CompileStaticConstToRegister` and
`CompileRegisterToStaticConst`, the operation returns an error before emission
iff the constant's byte length is odd; with an even-length constant it
succeeds and the recorded current node carries the given instruction, a
static-const operand on the given side with a register on the other, and the
given constant. -/
theorem compileStaticConstOperand_oddRejected (ins : Instruction)
    (c : StaticConst) (reg : Register) (a : Assembler) :
    ((∃ e, CompileStaticConstToRegister ins c reg a = .error e) ↔
      c.bytes.length % 2 = 1) ∧
    ((∃ e, CompileRegisterToStaticConst ins reg c a = .error e) ↔
      c.bytes.length % 2 = 1) ∧
    (c.bytes.length % 2 = 0 →
      ∃ a₁ n₁, CompileStaticConstToRegister ins c reg a = .ok a₁ ∧
        a₁.current = some n₁ ∧ n₁.instruction = ins ∧
        n₁.types.src = .staticConst ∧ n₁.types.dst = .register ∧
        n₁.staticConst = c) ∧
    (c.bytes.length % 2 = 0 →
      ∃ a₂ n₂, CompileRegisterToStaticConst ins reg c a = .ok a₂ ∧
        a₂.current = some n₂ ∧ n₂.instruction = ins ∧
        n₂.types.src = .register ∧ n₂.types.dst = .staticConst ∧
        n₂.staticConst = c) := by
  rcases Nat.mod_two_eq_zero_or_one c.bytes.length with h | h
  · have h1 : ¬ c.bytes.length % 2 = 1 := by omega
    refine ⟨?_, ?_, ?_, ?_⟩
    · refine ⟨fun he => absurd he.choose_spec ?_, fun hh => absurd hh h1⟩
      simp [CompileStaticConstToRegister, h1]
    · refine ⟨fun he => absurd he.choose_spec ?_, fun hh => absurd hh h1⟩
      simp [CompileRegisterToStaticConst, h1]
    · intro _
      have heq : CompileStaticConstToRegister ins c reg a =
          .ok { a with
            nodes := a.nodes ++ [⟨ins, ⟨.staticConst, .register⟩, reg, c⟩]
            current := some ⟨ins, ⟨.staticConst, .register⟩, reg, c⟩ } := by
        simp [CompileStaticConstToRegister, h1]
      exact ⟨_, _, heq, rfl, rfl, rfl, rfl, rfl⟩
    · intro _
      have heq : CompileRegisterToStaticConst ins reg c a =
          .ok { a with
            nodes := a.nodes ++ [⟨ins, ⟨.register, .staticConst⟩, reg, c⟩]
            current := some ⟨ins, ⟨.register, .staticConst⟩, reg, c⟩ } := by
        simp [CompileRegisterToStaticConst, h1]
      exact ⟨_, _, heq, rfl, rfl, rfl, rfl, rfl⟩
  · have h0 : ¬ c.bytes.length % 2 = 0 := by omega
    refine ⟨?_, ?_, fun hc => absurd hc h0, fun hc => absurd hc h0⟩
    · exact ⟨fun _ => h,
        fun _ => ⟨.InvalidOperand, by simp [CompileStaticConstToRegister, h]⟩⟩
    · exact ⟨fun _ => h,
        fun _ => ⟨.InvalidOperand, by simp [CompileRegisterToStaticConst, h]⟩⟩

/-- Witness for C3 at the in-repo test inputs: the one-byte constant `[1]` is
rejected on both sides, and the four-byte constant `[1,2,3,4]` is accepted
with the documented node fields. -/
theorem compileStaticConstOperand_oddRejected_witness :
    ((∃ e, CompileStaticConstToRegister .MOVDQU ⟨[1]⟩ .RegAX NewAssembler =
        .error e) ↔ ([1] : List Nat).length % 2 = 1) ∧
    (([1, 2, 3, 4] : List Nat).length % 2 = 0 ∧
      ∃ a₁ n₁, CompileStaticConstToRegister .MOVDQU ⟨[1, 2, 3, 4]⟩ .RegAX
          NewAssembler = .ok a₁ ∧
        a₁.current = some n₁ ∧ n₁.instruction = .MOVDQU ∧
        n₁.types.src = .staticConst ∧ n₁.types.dst = .register ∧
        n₁.staticConst = ⟨[1, 2, 3, 4]⟩) :=
  ⟨(compileStaticConstOperand_oddRejected .MOVDQU ⟨[1]⟩ .RegAX
      NewAssembler).1,
   by decide,
   (compileStaticConstOperand_oddRejected .MOVDQU ⟨[1, 2, 3, 4]⟩ .RegAX
      NewAssembler).2.2.1 (by decide)⟩

/-- C5: encoding a function section over the function-index list `[5]` yields
exactly the bytes `[0x03, 0x02, 0x01, 0x05]` (section id, payload length,
vector length, index), and encoding a start section over index `5` yields
exactly `[0x08, 0x01, 0x05]` (section id, payload length, index). -/
theorem encodeFunctionAndStartSection_bytes :
    EncodeFunctionSection [5] = [0x03, 0x02, 0x01, 0x05] ∧
    EncodeStartSection 5 = [0x08, 0x01, 0x05] := by
  constructor <;>
    simp [EncodeFunctionSection, EncodeStartSection, encodeSection,
      SectionIDFunction, SectionIDStart, leb128]

/-- Encoding a run of UD2 instructions yields the flattened 2-byte UD2
encodings and references no constants, at any offsets. -/
theorem assembleGo_replicate_ud2 (g : Nat) :
    ∀ off coff, assembleGo (List.replicate g .ud2) off coff =
      ((List.replicate g ([0x0F, 0x0B] : List Nat)).flatten, []) := by
  induction g with
  | zero => intro off coff; simp [assembleGo]
  | succ k ih =>
    intro off coff
    simp [List.replicate_succ, assembleGo, encodeAt, nodeConsts, encLen, ih]

/-- C6: assembling `CMPL r12, [const]` followed by `g` UD2 instructions emits
the RIP-relative encoding `0x44, 0x3B, 0x25` plus a 32-bit little-endian
displacement equal to the byte distance from the end of the instruction
(offset 7) to the constant's first byte (the end of the code stream), then the
UD2s, then the constant bytes; with an 8-byte constant and 10 UD2s the output
is exactly the documented byte string with displacement `0x14`. -/
theorem assemble_cmplR12_ripRelative (c : StaticConst) (g : Nat) :
    Assemble (.cmplRegToStaticConst .RegR12 c :: List.replicate g .ud2) =
      [0x44, 0x3B, 0x25] ++
        le32 (codeLength
          (.cmplRegToStaticConst .RegR12 c :: List.replicate g .ud2) - 7) ++
        (List.replicate g ([0x0F, 0x0B] : List Nat)).flatten ++ c.bytes ∧
    codeLength (.cmplRegToStaticConst .RegR12 c :: List.replicate g .ud2) - 7 =
      2 * g ∧
    Assemble (.cmplRegToStaticConst .RegR12 ⟨[1, 2, 3, 4, 5, 6, 7, 8]⟩ ::
        List.replicate 10 .ud2) =
      [0x44, 0x3B, 0x25, 0x14, 0x00, 0x00, 0x00,
       0x0F, 0x0B, 0x0F, 0x0B, 0x0F, 0x0B, 0x0F, 0x0B, 0x0F, 0x0B,
       0x0F, 0x0B, 0x0F, 0x0B, 0x0F, 0x0B, 0x0F, 0x0B, 0x0F, 0x0B,
       1, 2, 3, 4, 5, 6, 7, 8] := by
  have hcl : codeLength
      (.cmplRegToStaticConst .RegR12 c :: List.replicate g .ud2) = 7 + 2 * g := by
    simp [codeLength, encLen, regIndex, List.map_replicate, List.sum_replicate,
      smul_eq_mul]
    omega
  refine ⟨?_, by omega, by decide⟩
  simp [Assemble, assembleGo, encodeAt, nodeConsts, encLen, regIndex,
    assembleGo_replicate_ud2, codeLength]

/-- C7: instantiating the supplied `exit_on_start.wasm` module returns an
error that is an `ExitError` whose `ExitCode` equals 2 — not a module result
and not any other error kind. -/
theorem instantiate_exitOnStart_exitError :
    ∃ e : ExitError, InstantiateWithConfig exitOnStartWasm =
      .error (.exitErr e) ∧ e.ExitCode = 2 :=
  ⟨⟨2⟩, rfl, rfl⟩

/-- C10: for every pair of paths with `src = dst`, `rename` returns errno 0
without invoking the operating system's rename; when the paths differ, the OS
rename is performed and its error is unwrapped into the returned errno. -/
theorem rename_samePath_noOsCall {ε : Type} (unwrapOSError : Option ε → Nat)
    (osRename : String → String → Option ε) (src dst : String) :
    (src = dst → rename unwrapOSError osRename src dst = (0, false)) ∧
    (src ≠ dst →
      rename unwrapOSError osRename src dst =
        (unwrapOSError (osRename src dst), true)) := by
  constructor <;> intro h <;> simp [rename, h]

/-- Witness for C10 with a trivial OS oracle: equal paths return errno 0 with
no OS call, and distinct paths produce the unwrapped OS result. -/
theorem rename_samePath_noOsCall_witness :
    ("a" : String) = "a" ∧
    rename (fun _ : Option Nat => 7) (fun _ _ => none) "a" "a" = (0, false) ∧
    ("a" : String) ≠ "b" ∧
    rename (fun _ : Option Nat => 7) (fun _ _ => none) "a" "b" = (7, true) :=
  ⟨rfl,
   (rename_samePath_noOsCall (fun _ : Option Nat => 7)
     (fun _ _ => none) "a" "a").1 rfl,
   by decide,
   (rename_samePath_noOsCall (fun _ : Option Nat => 7)
     (fun _ _ => none) "a" "b").2 (by decide)⟩
